import Mathlib

/-!
Shallow embedding of the stake-reward program (src/program/src/state.rs) and
verification of the frozen claims about it.

Machine integers are modelled as `Nat`.  Checked Rust arithmetic
(`checked_add`, `checked_mul`, `checked_div`) is modelled by `Option`-valued
functions that test the width bound explicitly; the unchecked `u64`
arithmetic inside `get_multiplier` is modelled with wrapping (mod `2 ^ 64`)
semantics, which is release-mode Rust behaviour.  A `COption::unwrap()` on a
`None` value aborts the program; `get_multiplier` therefore returns an
`Option`, with `none` standing for that abort.
-/

/-- Width bound of a `u64` value. -/
def M64 : Nat := 2 ^ 64

/-- Width bound of a `u128` value. -/
def M128 : Nat := 2 ^ 128

/-- Error variants of `StakingError` (src/program/src/error.rs is not among
the sources; the variant names are taken from their uses in state.rs). -/
inductive StakingError where
  | RewardOverflow
  | RewardMulPrecisionOverflow
  | RewardMulPrecisionDivSupplyOverflow
  | AccuredTokenPerShareOverflow
  | TotalSupplyOverflow
  | InvalidPrecisionRank
  | PoolCounterOverflow
  | Overflow
deriving DecidableEq, Repr

/-- Rust `checked_add` at width bound `m`: `some` iff the exact sum fits. -/
def checked_add (m a b : Nat) : Option Nat :=
  if a + b < m then some (a + b) else none

/-- Rust `checked_mul` at width bound `m`: `some` iff the exact product fits. -/
def checked_mul (m a b : Nat) : Option Nat :=
  if a * b < m then some (a * b) else none

/-- Rust `checked_div`: `none` exactly when the divisor is zero. -/
def checked_div (a b : Nat) : Option Nat :=
  if b = 0 then none else some (a / b)

/-- Wrapping `u64` subtraction (release-mode Rust `-`). -/
def wsub64 (a b : Nat) : Nat := (a % M64 + (M64 - b % M64)) % M64

/-- Wrapping `u64` addition (release-mode Rust `+`). -/
def wadd64 (a b : Nat) : Nat := (a % M64 + b % M64) % M64

/-- Wrapping `u64` multiplication (release-mode Rust `*`). -/
def wmul64 (a b : Nat) : Nat := a % M64 * (b % M64) % M64

/-- The `StakePool` record of state.rs.  `Pubkey` values (`owner`, `mint`)
are 32-byte arrays, modelled as byte lists; `COption` fields are `Option`. -/
structure StakePool where
  pool_index : Nat
  owner : List Nat
  mint : List Nat
  is_initialized : Nat
  precision_factor_rank : Nat
  bonus_multiplier : Option Nat
  bonus_start_block : Option Nat
  bonus_end_block : Option Nat
  last_reward_block : Nat
  start_block : Nat
  end_block : Nat
  reward_amount : Nat
  reward_per_block : Nat
  accrued_token_per_share : Nat
  period_finish : Nat
  reward_rate : Nat
  last_update_time : Nat
  reward_per_token_stored : Nat
  total_supply : Nat
deriving DecidableEq, Repr

/-- The private setter `StakePool::set_last_reward_block`. -/
def set_last_reward_block (p : StakePool) (block : Nat) : StakePool :=
  { p with last_reward_block := block }

/-- The setter `StakePool::set_bonus_multiplier`: stores `COption::Some`. -/
def set_bonus_multiplier (p : StakePool) (m : Nat) : StakePool :=
  { p with bonus_multiplier := some m }

/-- The setter `StakePool::set_end_block`. -/
def set_end_block (p : StakePool) (block : Nat) : StakePool :=
  { p with end_block := block }

/-- Modelled from the spec: `get_precision_factor` lives in
src/program/src/utils.rs, which is not among the sources.  Section 4.1 of the
spec says it maps a small closed set of ranks to a power-of-ten scaling
constant and fails with `InvalidPrecisionRank` outside that set.  The
supported set is modelled as the ranks whose power of ten fits in a `u64`
(0 through 18). -/
def get_precision_factor (rank : Nat) : Except StakingError Nat :=
  if rank ≤ 18 then Except.ok (10 ^ rank) else Except.error StakingError.InvalidPrecisionRank

/-- `StakePool::get_multiplier` of state.rs.  The source first clamps `from`
up to `start_block` and `to` down to `end_block`, then unwraps
`bonus_multiplier` (aborting — modelled as `none` — when it is absent),
defaults an absent bonus start/end to `0`, and returns one of five piecewise
cases computed with unchecked `u64` arithmetic. -/
def get_multiplier (p : StakePool) (fromB toB : Nat) : Option Nat :=
  let f := if fromB < p.start_block then p.start_block else fromB
  let t := if p.end_block < toB then p.end_block else toB
  match p.bonus_multiplier with
  | none => none
  | some mult =>
    let bstart := match p.bonus_start_block with
      | some v => v
      | none => 0
    let bstop := match p.bonus_end_block with
      | some v => v
      | none => 0
    if f < bstart ∧ bstop < t then
      some (wadd64 (wsub64 (wadd64 (wsub64 bstart f) t) bstop) (wmul64 (wsub64 bstop bstart) mult))
    else if f < bstart ∧ bstart < t then
      some (wadd64 (wsub64 bstart f) (wmul64 (wsub64 t bstart) mult))
    else if f < bstop ∧ bstop < t then
      some (wadd64 (wsub64 t bstop) (wmul64 (wsub64 bstop f) mult))
    else if bstart ≤ f ∧ t ≤ bstop then
      some (wmul64 (wsub64 t f) mult)
    else
      some (wsub64 t f)

/-- The tail of `update_pool` (state.rs lines 277-281): advance
`last_reward_block` to `current_block` when `end_block > current_block`,
otherwise to `end_block`. -/
def apply_last_reward (p : StakePool) (current_block : Nat) : StakePool :=
  if current_block < p.end_block then set_last_reward_block p current_block
  else set_last_reward_block p p.end_block

/-- The final `if let` of `update_pool` (state.rs lines 283-289): when a
present `bonus_end_block` is nonzero and lies strictly before
`current_block`, clear both window fields and reset the multiplier to 1. -/
def apply_bonus_clear (p : StakePool) (current_block : Nat) : StakePool :=
  match p.bonus_end_block with
  | some v =>
    if v ≠ 0 ∧ v < current_block then
      set_bonus_multiplier
        { p with bonus_start_block := none, bonus_end_block := none } 1
    else p
  | none => p

/-- Result of `StakePool::update_pool`.  Rust mutates `self` in place, so an
error (`Err`) carries the state as it stands when the error surfaces, and
`panicked` records an abort inside `get_multiplier` (unwrap of an absent
`bonus_multiplier`). -/
inductive UpdateOutcome where
  | ok (p : StakePool)
  | err (e : StakingError) (p : StakePool)
  | panicked (p : StakePool)
deriving DecidableEq, Repr

/-- `StakePool::update_pool` of state.rs.  `staked_token_supply` is the
amount of the pool's staked token account, `current_block` is `clock.slot`,
and `amount` is the incoming stake.  The translation follows the source
statement by statement; in particular `accrued_token_per_share` is assigned
before the checked add to `total_supply` runs. -/
def update_pool (p : StakePool) (staked_token_supply current_block amount : Nat) :
    UpdateOutcome :=
  if current_block ≤ p.last_reward_block then
    UpdateOutcome.ok p
  else if staked_token_supply = 0 then
    UpdateOutcome.ok (set_last_reward_block p current_block)
  else
    match get_multiplier p p.last_reward_block current_block with
    | none => UpdateOutcome.panicked p
    | some multiplier =>
      match checked_mul M64 multiplier p.reward_per_block with
      | none => UpdateOutcome.err StakingError.RewardOverflow p
      | some reward =>
        match get_precision_factor p.precision_factor_rank with
        | Except.error e => UpdateOutcome.err e p
        | Except.ok precision_factor =>
          match checked_mul M128 reward precision_factor with
          | none => UpdateOutcome.err StakingError.RewardMulPrecisionOverflow p
          | some prod =>
            match checked_div prod staked_token_supply with
            | none => UpdateOutcome.err StakingError.RewardMulPrecisionDivSupplyOverflow p
            | some delta =>
              match checked_add M128 p.accrued_token_per_share delta with
              | none => UpdateOutcome.err StakingError.AccuredTokenPerShareOverflow p
              | some acc =>
                match checked_add M64 p.total_supply amount with
                | none =>
                  UpdateOutcome.err StakingError.TotalSupplyOverflow
                    { p with accrued_token_per_share := acc }
                | some ts =>
                  UpdateOutcome.ok
                    (apply_bonus_clear
                      (apply_last_reward
                        { p with accrued_token_per_share := acc, total_supply := ts }
                        current_block)
                      current_block)

/-- `StakePool::get_last_time_reward_applicable` of state.rs.  The source
matches the `period_finish` field against `COption` (`Some v` gives `v`,
`None` gives `0`), so that field is taken here as an optional value; `now`
is `clock.unixTimestamp`.  The source returns `period_finish` when
`now < period_finish` and `now` otherwise. -/
def get_last_time_reward_applicable (period_finish : Option Nat) (now : Nat) : Nat :=
  let pf := match period_finish with
    | some v => v
    | none => 0
  if now < pf then pf else now

/-- Decode failure (`ProgramError::InvalidAccountData`) raised by the
`COption` unpackers. -/
inductive PErr where
  | InvalidAccountData
deriving DecidableEq, Repr

/-- Little-endian byte encoding of a value at a fixed width (`to_le_bytes`). -/
def toLE : Nat → Nat → List Nat
  | 0, _ => []
  | n + 1, x => x % 256 :: toLE n (x / 256)

/-- Little-endian byte decoding (`from_le_bytes`). -/
def fromLE : List Nat → Nat
  | [] => 0
  | b :: rest => b + 256 * fromLE rest

/-- The `len` bytes of a buffer starting at offset `off` (an `array_ref`). -/
def seg (l : List Nat) (off len : Nat) : List Nat := (l.drop off).take len

/-- The free function `unpack_coption_u8` of state.rs: a 4-byte presence tag
followed by a 1-byte body; tag `[0,0,0,0]` decodes to `None`, `[1,0,0,0]` to
`Some`, anything else is `InvalidAccountData`. -/
def unpack_coption_u8 (l : List Nat) : Except PErr (Option Nat) :=
  if seg l 0 4 = [0, 0, 0, 0] then Except.ok none
  else if seg l 0 4 = [1, 0, 0, 0] then Except.ok (some (fromLE (seg l 4 1)))
  else Except.error PErr.InvalidAccountData

/-- The free function `unpack_coption_u64` of state.rs: a 4-byte presence tag
followed by an 8-byte little-endian body. -/
def unpack_coption_u64 (l : List Nat) : Except PErr (Option Nat) :=
  if seg l 0 4 = [0, 0, 0, 0] then Except.ok none
  else if seg l 0 4 = [1, 0, 0, 0] then Except.ok (some (fromLE (seg l 4 8)))
  else Except.error PErr.InvalidAccountData

/-- The free function `pack_coption_u8` of state.rs.  With `Some` it writes
tag `[1,0,0,0]` and the body; with `None` it writes only the zero tag and
leaves the body bytes of the destination untouched, so the old body is kept. -/
def pack_coption_u8 (o : Option Nat) (old : List Nat) : List Nat :=
  match o with
  | some v => [1, 0, 0, 0] ++ toLE 1 v
  | none => [0, 0, 0, 0] ++ seg old 4 1

/-- The free function `pack_coption_u64` of state.rs; `None` keeps the old
body bytes of the destination, as in `pack_coption_u8`. -/
def pack_coption_u64 (o : Option Nat) (old : List Nat) : List Nat :=
  match o with
  | some v => [1, 0, 0, 0] ++ toLE 8 v
  | none => [0, 0, 0, 0] ++ seg old 4 8

/-- `Pack::unpack_from_slice` for `StakePool`: splits the first 215 bytes at
widths 8,32,32,1,1,5,12,12,8,8,8,8,8,16,8,16,8,16,8 and decodes each field
little-endian (the three option fields through the `COption` unpackers). -/
def unpack_from_slice (src : List Nat) : Except PErr StakePool := do
  let bm ← unpack_coption_u8 (seg src 74 5)
  let bsb ← unpack_coption_u64 (seg src 79 12)
  let beb ← unpack_coption_u64 (seg src 91 12)
  Except.ok
    { pool_index := fromLE (seg src 0 8)
      owner := seg src 8 32
      mint := seg src 40 32
      is_initialized := fromLE (seg src 72 1)
      precision_factor_rank := fromLE (seg src 73 1)
      bonus_multiplier := bm
      bonus_start_block := bsb
      bonus_end_block := beb
      last_reward_block := fromLE (seg src 103 8)
      start_block := fromLE (seg src 111 8)
      end_block := fromLE (seg src 119 8)
      reward_amount := fromLE (seg src 127 8)
      reward_per_block := fromLE (seg src 135 8)
      accrued_token_per_share := fromLE (seg src 143 16)
      period_finish := fromLE (seg src 159 8)
      reward_rate := fromLE (seg src 167 16)
      last_update_time := fromLE (seg src 183 8)
      reward_per_token_stored := fromLE (seg src 191 16)
      total_supply := fromLE (seg src 207 8) }

/-- `Pack::pack_into_slice` for `StakePool`, modelled as the eighteen segment
writes the source lists (state.rs lines 199-216).  The source splits the
destination at nineteen widths but binds only eighteen destination segments:
no binder exists for the final 8-byte `total_supply` segment, and the
function body contains no write of `total_supply` into the buffer, so that
segment keeps the destination's prior bytes.  (As written the source does
not even compile — the `mut_array_refs` arity does not match, and the last
four listed writes go through names shadowed by the `StakePool`
destructuring — which is recorded under claim C9.) -/
def pack_into_slice (p : StakePool) (dst : List Nat) : List Nat :=
  toLE 8 p.pool_index ++ p.owner ++ p.mint ++
  toLE 1 p.is_initialized ++ toLE 1 p.precision_factor_rank ++
  pack_coption_u8 p.bonus_multiplier (seg dst 74 5) ++
  pack_coption_u64 p.bonus_start_block (seg dst 79 12) ++
  pack_coption_u64 p.bonus_end_block (seg dst 91 12) ++
  toLE 8 p.last_reward_block ++ toLE 8 p.start_block ++ toLE 8 p.end_block ++
  toLE 8 p.reward_amount ++ toLE 8 p.reward_per_block ++
  toLE 16 p.accrued_token_per_share ++ toLE 8 p.period_finish ++
  toLE 16 p.reward_rate ++ toLE 8 p.last_update_time ++
  toLE 16 p.reward_per_token_stored ++
  seg dst 207 8

lemma wsub64_self (a : Nat) : wsub64 a a = 0 := by
  simp only [wsub64, M64]
  omega

lemma wmul64_zero_left (m : Nat) : wmul64 0 m = 0 := by
  simp [wmul64]

lemma wsub64_of_le {a b : Nat} (h : b ≤ a) (ha : a < M64) : wsub64 a b = a - b := by
  simp only [wsub64, M64] at *
  omega

lemma checked_add_some {m a b c : Nat} (h : checked_add m a b = some c) :
    c = a + b ∧ a + b < m := by
  unfold checked_add at h
  split at h
  · exact ⟨(Option.some.inj h).symm, by assumption⟩
  · exact absurd h (by simp)

lemma checked_mul_some {m a b c : Nat} (h : checked_mul m a b = some c) :
    c = a * b ∧ a * b < m := by
  unfold checked_mul at h
  split at h
  · exact ⟨(Option.some.inj h).symm, by assumption⟩
  · exact absurd h (by simp)

lemma checked_div_some {a b c : Nat} (h : checked_div a b = some c) :
    c = a / b ∧ b ≠ 0 := by
  unfold checked_div at h
  split at h
  · exact absurd h (by simp)
  · exact ⟨(Option.some.inj h).symm, by assumption⟩

lemma apply_last_reward_last_le (p : StakePool) (cb : Nat) :
    (apply_last_reward p cb).last_reward_block ≤ p.end_block := by
  unfold apply_last_reward set_last_reward_block
  split <;> simp <;> omega

lemma apply_last_reward_last_of_le (p : StakePool) (cb : Nat) (h : cb ≤ p.end_block) :
    (apply_last_reward p cb).last_reward_block = cb := by
  unfold apply_last_reward set_last_reward_block
  split <;> simp <;> omega

lemma apply_last_reward_last_of_ge (p : StakePool) (cb : Nat) (h : p.end_block ≤ cb) :
    (apply_last_reward p cb).last_reward_block = p.end_block := by
  unfold apply_last_reward set_last_reward_block
  split <;> simp <;> omega

lemma apply_last_reward_frame (p : StakePool) (cb : Nat) :
    (apply_last_reward p cb).end_block = p.end_block ∧
    (apply_last_reward p cb).accrued_token_per_share = p.accrued_token_per_share ∧
    (apply_last_reward p cb).total_supply = p.total_supply ∧
    (apply_last_reward p cb).bonus_multiplier = p.bonus_multiplier ∧
    (apply_last_reward p cb).bonus_start_block = p.bonus_start_block ∧
    (apply_last_reward p cb).bonus_end_block = p.bonus_end_block := by
  unfold apply_last_reward set_last_reward_block
  split <;> exact ⟨rfl, rfl, rfl, rfl, rfl, rfl⟩

lemma apply_bonus_clear_frame (p : StakePool) (cb : Nat) :
    (apply_bonus_clear p cb).last_reward_block = p.last_reward_block ∧
    (apply_bonus_clear p cb).end_block = p.end_block ∧
    (apply_bonus_clear p cb).accrued_token_per_share = p.accrued_token_per_share ∧
    (apply_bonus_clear p cb).total_supply = p.total_supply := by
  unfold apply_bonus_clear set_bonus_multiplier
  split
  · split <;> exact ⟨rfl, rfl, rfl, rfl⟩
  · exact ⟨rfl, rfl, rfl, rfl⟩

lemma get_multiplier_isSome {p : StakePool} {f t x : Nat}
    (h : get_multiplier p f t = some x) : ∃ m, p.bonus_multiplier = some m := by
  unfold get_multiplier at h
  rcases hm : p.bonus_multiplier with _ | m
  · rw [hm] at h
    simp at h
  · exact ⟨m, rfl⟩

/-- When `from` and the clamped `to` both land on `end_block` (the pinned
situation) and the bonus window is well formed, the piecewise function
returns 0: no further blocks are counted. -/
lemma get_multiplier_pinned (p : StakePool) (m toB : Nat)
    (hm : p.bonus_multiplier = some m)
    (hse : p.start_block ≤ p.end_block)
    (hwf : p.bonus_start_block.getD 0 ≤ p.bonus_end_block.getD 0)
    (hto : p.end_block ≤ toB) :
    get_multiplier p p.end_block toB = some 0 := by
  unfold get_multiplier
  rw [hm]
  have hf : (if p.end_block < p.start_block then p.start_block else p.end_block)
      = p.end_block := by split <;> omega
  have ht : (if p.end_block < toB then p.end_block else toB) = p.end_block := by
    split <;> omega
  simp only [hf, ht]
  rcases hbs : p.bonus_start_block with _ | x <;>
    rcases hbe : p.bonus_end_block with _ | y <;>
    simp only [hbs, hbe, Option.getD_some, Option.getD_none] at hwf ⊢ <;>
    split_ifs with h1 h2 h3 h4 <;>
    first
      | (exfalso; omega)
      | (rw [wsub64_self, wmul64_zero_left])
      | (rw [wsub64_self])

/-- Inversion of a successful run of `update_pool` through the accrual path:
each checked step succeeded and the result is the committed state with the
two trailing adjustments applied. -/
lemma update_pool_ok_inv {p : StakePool} {s cb a : Nat} {p' : StakePool}
    (hcb : p.last_reward_block < cb) (hs : s ≠ 0)
    (h : update_pool p s cb a = UpdateOutcome.ok p') :
    ∃ mult reward pf prod delta acc ts,
      get_multiplier p p.last_reward_block cb = some mult ∧
      checked_mul M64 mult p.reward_per_block = some reward ∧
      get_precision_factor p.precision_factor_rank = Except.ok pf ∧
      checked_mul M128 reward pf = some prod ∧
      checked_div prod s = some delta ∧
      checked_add M128 p.accrued_token_per_share delta = some acc ∧
      checked_add M64 p.total_supply a = some ts ∧
      p' = apply_bonus_clear (apply_last_reward
            { p with accrued_token_per_share := acc, total_supply := ts } cb) cb := by
  unfold update_pool at h
  rw [if_neg (by omega), if_neg hs] at h
  split at h
  · exact absurd h (by simp)
  next mult hmult =>
    split at h
    · exact absurd h (by simp)
    next reward hreward =>
      split at h
      next e he => exact absurd h (by simp)
      next pf hpf =>
        split at h
        · exact absurd h (by simp)
        next prod hprod =>
          split at h
          · exact absurd h (by simp)
          next delta hdelta =>
            split at h
            · exact absurd h (by simp)
            next acc hacc =>
              split at h
              · exact absurd h (by simp)
              next ts hts =>
                injection h with h'
                exact ⟨mult, reward, pf, prod, delta, acc, ts, hmult, hreward,
                  hpf, hprod, hdelta, hacc, hts, h'.symm⟩

/-- A baseline pool value used by the concrete test states below. -/
def basePool : StakePool :=
  { pool_index := 0
    owner := List.replicate 32 0
    mint := List.replicate 32 0
    is_initialized := 1
    precision_factor_rank := 9
    bonus_multiplier := some 1
    bonus_start_block := none
    bonus_end_block := none
    last_reward_block := 0
    start_block := 0
    end_block := 100
    reward_amount := 0
    reward_per_block := 1
    accrued_token_per_share := 0
    period_finish := 0
    reward_rate := 0
    last_update_time := 0
    reward_per_token_stored := 0
    total_supply := 0 }

/-- The pool of the spec's concrete multiplier test: active range [0,1000],
bonus window [100,200], bonus multiplier 3. -/
def poolC1 : StakePool :=
  { basePool with
    end_block := 1000
    bonus_multiplier := some 3
    bonus_start_block := some 100
    bonus_end_block := some 200 }

/-- C1 (counterexample): on the spec's own pool, `get_multiplier(0,1000)`
does not return 1100 as claimed; the code returns
`(100-0) + (1000-200) + (200-100)*3 = 1200`. -/
theorem c1_claim_false : get_multiplier poolC1 0 1000 ≠ some 1100 := by decide

/-- C1 (amended): for the pool with start_block=0, end_block=1000,
bonus_start_block=100, bonus_end_block=200 and bonus_multiplier=3,
`get_multiplier(50,150) = 200`, `get_multiplier(150,250) = 200`, and
`get_multiplier(0,1000) = 1200` (the claim's value 1100 miscounts the
post-bonus segment 1000-200 = 800 as 700). -/
theorem c1_amended :
    get_multiplier poolC1 50 150 = some 200 ∧
    get_multiplier poolC1 150 250 = some 200 ∧
    get_multiplier poolC1 0 1000 = some 1200 := by
  exact ⟨by decide, by decide, by decide⟩

/-- C3: with a staked-token supply of zero and a current block past the last
reward block, `update_pool` succeeds and only advances `last_reward_block`
to the current block; `accrued_token_per_share` (and every other field) is
untouched, for any `reward_per_block`. -/
theorem c3_zero_supply_freeze (p : StakePool) (current_block amount : Nat)
    (h : p.last_reward_block < current_block) :
    update_pool p 0 current_block amount =
      UpdateOutcome.ok { p with last_reward_block := current_block } := by
  unfold update_pool
  rw [if_neg (by omega), if_pos rfl]
  rfl

/-- C3 (witness): the zero-supply theorem evaluated on a concrete pool. -/
theorem c3_zero_supply_freeze_witness :
    update_pool basePool 0 5 7 =
      UpdateOutcome.ok { basePool with last_reward_block := 5 } :=
  c3_zero_supply_freeze basePool 5 7 (by decide)

/-- A pool whose bonus fields are all absent. -/
def poolC7 : StakePool := { basePool with bonus_multiplier := none }

/-- C7 (counterexample): `get_multiplier` is not total: when the bonus
fields are absent, the source's `self.bonus_multiplier.unwrap()` aborts
(modelled as `none`) instead of defaulting the multiplier to 1. -/
theorem c7_claim_false :
    poolC7.bonus_multiplier = none ∧ get_multiplier poolC7 0 10 = none := by
  exact ⟨rfl, by decide⟩

/-- C7 (amended): `get_multiplier` aborts when `bonus_multiplier` is absent;
when `bonus_multiplier` is present (any value) and the bonus start/end are
absent (defaulting the bonus interval to [0,0]), then for clamped bounds in
order it returns the clamped interval length
`min(to,end_block) - max(from,start_block)`. -/
theorem c7_amended (p : StakePool) (fromB toB m : Nat)
    (hm : p.bonus_multiplier = some m)
    (hbs : p.bonus_start_block = none) (hbe : p.bonus_end_block = none)
    (hcl : max fromB p.start_block ≤ min toB p.end_block)
    (hf : fromB < M64) (hsb : p.start_block < M64)
    (ht : toB < M64) (heb : p.end_block < M64) :
    get_multiplier p fromB toB =
      some (min toB p.end_block - max fromB p.start_block) := by
  have hfm : (if fromB < p.start_block then p.start_block else fromB)
      = max fromB p.start_block := by split <;> omega
  have htm : (if p.end_block < toB then p.end_block else toB)
      = min toB p.end_block := by split <;> omega
  simp only [get_multiplier, hm, hbs, hbe, hfm, htm]
  have hc1 : ¬(max fromB p.start_block < 0 ∧ 0 < min toB p.end_block) := by omega
  rw [if_neg hc1, if_neg hc1, if_neg hc1]
  by_cases hc4 : 0 ≤ max fromB p.start_block ∧ min toB p.end_block ≤ 0
  · rw [if_pos hc4]
    have hT0 : min toB p.end_block = 0 := by omega
    have hF0 : max fromB p.start_block = 0 := by omega
    rw [hT0, hF0, wsub64_self, wmul64_zero_left]
  · rw [if_neg hc4, wsub64_of_le hcl (by omega)]

/-- C7 (witness): the amended theorem evaluated at a concrete pool and
bounds: the clamped length of [5,30] inside [0,100] with no bonus window. -/
theorem c7_amended_witness :
    get_multiplier basePool 5 30 =
      some (min 30 basePool.end_block - max 5 basePool.start_block) :=
  c7_amended basePool 5 30 1 rfl rfl rfl (by decide) (by decide) (by decide)
    (by decide) (by decide)

/-- C8 (counterexample): `get_last_time_reward_applicable` does not return
`min(now, period_finish)`: at `now = 5`, `period_finish = 10` the source
returns 10 (the larger value), not 5. -/
theorem c8_claim_false :
    get_last_time_reward_applicable (some 10) 5 ≠ min 5 10 := by decide

/-- C8 (amended): `get_last_time_reward_applicable` returns
`max(now, period_finish)` (the branch `if now < period_finish` yields
`period_finish`, otherwise `now`), with an unset `period_finish` treated as
zero, so in that case the result is `now`. -/
theorem c8_amended (period_finish : Option Nat) (now : Nat) :
    get_last_time_reward_applicable period_finish now
      = max now (period_finish.getD 0) := by
  rcases period_finish with _ | v <;>
    simp only [get_last_time_reward_applicable, Option.getD_some, Option.getD_none] <;>
    split <;> omega

/-- A concrete pool record with a nonzero `total_supply` and a mix of
present and absent option fields, used against the pack layout. -/
def poolC9 : StakePool :=
  { basePool with
    pool_index := 1
    total_supply := 7
    accrued_token_per_share := 12345
    bonus_multiplier := some 3
    bonus_start_block := some 4
    period_finish := 11
    reward_rate := 13
    last_update_time := 17
    reward_per_token_stored := 19 }

/-- C9 (code bug): the fixed-width round trip fails for `StakePool`:
`pack_into_slice` never serializes `total_supply` (the source binds only
eighteen destination segments against nineteen declared widths and contains
no write into the final 8-byte segment; as written it does not compile), so
packing a record with `total_supply = 7` into a zeroed buffer and unpacking
yields the record with `total_supply = 0`, not the original. -/
theorem c9_pack_drops_total_supply :
    poolC9.total_supply = 7 ∧
    unpack_from_slice (pack_into_slice poolC9 (List.replicate 215 0)) =
      Except.ok { poolC9 with total_supply := 0 } ∧
    ({ poolC9 with total_supply := 0 } : StakePool) ≠ poolC9 := by
  refine ⟨rfl, by rfl, by decide⟩

/-- A pool already pinned at its end block. -/
def poolC2 : StakePool :=
  { basePool with last_reward_block := 10, end_block := 10 }

/-- C2 (counterexample): the invariant fails on the zero-supply branch: a
pool with `last_reward_block = end_block = 10` and staked supply 0, settled
at block 20, succeeds and ends with `last_reward_block = 20 > end_block`. -/
theorem c2_claim_false :
    poolC2.last_reward_block ≤ poolC2.end_block ∧
    update_pool poolC2 0 20 0 =
      UpdateOutcome.ok { poolC2 with last_reward_block := 20 } ∧
    poolC2.end_block <
      ({ poolC2 with last_reward_block := 20 } : StakePool).last_reward_block := by
  refine ⟨by decide, by decide, by decide⟩

/-- C2 (amended): on the accrual path (nonzero staked supply) a successful
`update_pool` keeps `last_reward_block ≤ end_block`; and once
`last_reward_block = end_block` (for a well-formed schedule
`start_block ≤ end_block` and an ordered bonus window), a successful call
leaves `accrued_token_per_share` unchanged and `last_reward_block` pinned
at `end_block`.  The zero-supply branch instead sets `last_reward_block`
to `current_block`, which may exceed `end_block` (see the counterexample). -/
theorem c2_amended (p : StakePool) (s current_block amount : Nat) (p' : StakePool)
    (hs : s ≠ 0) (hle : p.last_reward_block ≤ p.end_block)
    (h : update_pool p s current_block amount = UpdateOutcome.ok p') :
    p'.last_reward_block ≤ p.end_block ∧
    (p.last_reward_block = p.end_block → p.start_block ≤ p.end_block →
      p.bonus_start_block.getD 0 ≤ p.bonus_end_block.getD 0 →
      p'.accrued_token_per_share = p.accrued_token_per_share ∧
      p'.last_reward_block = p.end_block) := by
  by_cases hcb : current_block ≤ p.last_reward_block
  · have hp : p' = p := by
      unfold update_pool at h
      rw [if_pos hcb] at h
      injection h with h'
      exact h'.symm
    subst hp
    exact ⟨hle, fun hpin _ _ => ⟨rfl, hpin⟩⟩
  · push_neg at hcb
    obtain ⟨mult, reward, pf, prod, delta, acc, ts, hmult, hreward, hpf, hprod,
      hdelta, hacc, hts, hp⟩ := update_pool_ok_inv hcb hs h
    have hfr := apply_bonus_clear_frame
      (apply_last_reward
        { p with accrued_token_per_share := acc, total_supply := ts } current_block)
      current_block
    have hfr2 := apply_last_reward_frame
      { p with accrued_token_per_share := acc, total_supply := ts } current_block
    constructor
    · rw [hp, hfr.1]
      exact apply_last_reward_last_le
        { p with accrued_token_per_share := acc, total_supply := ts } current_block
    · intro hpin hse hwf
      obtain ⟨m, hm⟩ := get_multiplier_isSome hmult
      rw [hpin] at hmult
      rw [get_multiplier_pinned p m current_block hm hse hwf (by omega)] at hmult
      have hmult0 : mult = 0 := by
        injection hmult with h'
        exact h'.symm
      subst hmult0
      obtain ⟨hrw, _⟩ := checked_mul_some hreward
      have hrw0 : reward = 0 := by simpa using hrw
      subst hrw0
      obtain ⟨hpr, _⟩ := checked_mul_some hprod
      have hpr0 : prod = 0 := by simpa using hpr
      subst hpr0
      obtain ⟨hd, _⟩ := checked_div_some hdelta
      have hd0 : delta = 0 := by simpa using hd
      subst hd0
      obtain ⟨ha, _⟩ := checked_add_some hacc
      have ha0 : acc = p.accrued_token_per_share := by omega
      subst ha0
      constructor
      · rw [hp, hfr.2.2.1, hfr2.2.1]
      · rw [hp, hfr.1,
          apply_last_reward_last_of_ge
            { p with accrued_token_per_share := p.accrued_token_per_share, total_supply := ts }
            current_block ((by omega : p.end_block ≤ current_block) : _)]

/-- A pinned pool with a nonzero accrued index, used to exercise the
amended C2 theorem on the accrual path. -/
def poolC2W : StakePool :=
  { basePool with
    last_reward_block := 10
    end_block := 10
    accrued_token_per_share := 42
    total_supply := 100
    reward_per_block := 5 }

/-- C2 (witness): the amended theorem evaluated on a concrete pinned pool:
a successful settle at block 20 keeps the index at 42 and the last reward
block at 10. -/
theorem c2_amended_witness :
    update_pool poolC2W 2 20 3 =
      UpdateOutcome.ok { poolC2W with total_supply := 103 } ∧
    ({ poolC2W with total_supply := 103 } : StakePool).last_reward_block ≤
      poolC2W.end_block ∧
    ({ poolC2W with total_supply := 103 } : StakePool).accrued_token_per_share =
      poolC2W.accrued_token_per_share := by
  have h : update_pool poolC2W 2 20 3 =
      UpdateOutcome.ok { poolC2W with total_supply := 103 } := by decide
  have res := c2_amended poolC2W 2 20 3 _ (by decide) (by decide) h
  exact ⟨h, res.1, (res.2 (by decide) (by decide) (by decide)).1⟩

/-- A pool whose schedule ends (block 10) before the settle height used in
the idempotence counterexample. -/
def poolC4 : StakePool :=
  { basePool with last_reward_block := 5, end_block := 10, reward_per_block := 0 }

/-- State after settling `poolC4` once at block 20 with incoming amount 1. -/
def poolC4a : StakePool :=
  { poolC4 with last_reward_block := 10, total_supply := 1 }

/-- State after settling `poolC4` twice at block 20 with incoming amount 1. -/
def poolC4b : StakePool :=
  { poolC4 with last_reward_block := 10, total_supply := 2 }

/-- C4 (counterexample): settling twice at the same height with the same
staked supply is not a no-op once `current_block > end_block`: the first
call pins `last_reward_block` at `end_block = 10 < 20`, so the second call
re-enters the accrual path and adds `amount` to `total_supply` again. -/
theorem c4_claim_false :
    update_pool poolC4 3 20 1 = UpdateOutcome.ok poolC4a ∧
    update_pool poolC4a 3 20 1 = UpdateOutcome.ok poolC4b ∧
    poolC4b ≠ poolC4a := by
  refine ⟨by decide, by decide, by decide⟩

/-- C4 (amended): a second `update_pool` with the same `current_block` and
the same staked supply is a no-op provided the first call ran with zero
supply, or was already settled, or `current_block ≤ end_block` — in each of
these cases the first call leaves `last_reward_block ≥ current_block`, so
the second call returns through the early guard without mutation.  When
`current_block > end_block` (the counterexample) the guard does not fire. -/
theorem c4_amended (p : StakePool) (s cb a a' : Nat) (p1 : StakePool)
    (hcond : s = 0 ∨ cb ≤ p.last_reward_block ∨ cb ≤ p.end_block)
    (h : update_pool p s cb a = UpdateOutcome.ok p1) :
    update_pool p1 s cb a' = UpdateOutcome.ok p1 := by
  by_cases hcb : cb ≤ p.last_reward_block
  · have hp : p1 = p := by
      unfold update_pool at h
      rw [if_pos hcb] at h
      injection h with h'
      exact h'.symm
    subst hp
    unfold update_pool
    rw [if_pos hcb]
  · by_cases hs : s = 0
    · subst hs
      have hp : p1 = set_last_reward_block p cb := by
        unfold update_pool at h
        rw [if_neg hcb, if_pos rfl] at h
        injection h with h'
        exact h'.symm
      subst hp
      unfold update_pool
      rw [if_pos (show cb ≤ (set_last_reward_block p cb).last_reward_block from le_refl cb)]
    · rcases hcond with h0 | h1 | h2
      · exact absurd h0 hs
      · exact absurd h1 hcb
      · push_neg at hcb
        obtain ⟨mult, reward, pf, prod, delta, acc, ts, hmult, hreward, hpf, hprod,
          hdelta, hacc, hts, hp⟩ := update_pool_ok_inv hcb hs h
        have hfr := apply_bonus_clear_frame
          (apply_last_reward
            { p with accrued_token_per_share := acc, total_supply := ts } cb) cb
        have hlast : p1.last_reward_block = cb := by
          rw [hp, hfr.1]
          exact apply_last_reward_last_of_le _ _ ((h2 : cb ≤ p.end_block) : _)
        unfold update_pool
        rw [if_pos (by omega)]

/-- The settled state reached from `basePool` at block 20 with supply 3 and
incoming amount 1; used to witness the amended idempotence theorem. -/
def poolC4W : StakePool :=
  { basePool with
    last_reward_block := 20
    accrued_token_per_share := 6666666666
    total_supply := 1 }

/-- C4 (witness): the amended theorem at a concrete pool: the second settle
at block 20 (which is at most `end_block = 100`) returns the state of the
first settle unchanged. -/
theorem c4_amended_witness : update_pool poolC4W 3 20 1 = UpdateOutcome.ok poolC4W :=
  c4_amended basePool 3 20 1 1 poolC4W (Or.inr (Or.inr (by decide))) (by decide)

/-- A pool whose running total supply is already at the `u64` maximum. -/
def poolC5 : StakePool := { basePool with total_supply := 2 ^ 64 - 1 }

/-- C5 (counterexample): an erroring `update_pool` is not free of partial
mutation: with the total supply at `u64::MAX` and an incoming amount of 1,
the call fails with `TotalSupplyOverflow`, but `accrued_token_per_share`
has already been advanced from 0 to 10^10 when the error surfaces. -/
theorem c5_claim_false :
    update_pool poolC5 1 10 1 =
      UpdateOutcome.err StakingError.TotalSupplyOverflow
        { poolC5 with accrued_token_per_share := 10000000000 } ∧
    ({ poolC5 with accrued_token_per_share := 10000000000 } : StakePool).accrued_token_per_share
      ≠ poolC5.accrued_token_per_share := by
  refine ⟨by decide, by decide⟩

/-- C5 (amended): every error raised before the accrued-index assignment
(`RewardOverflow`, the precision-factor error, `RewardMulPrecisionOverflow`,
`RewardMulPrecisionDivSupplyOverflow`, `AccuredTokenPerShareOverflow`)
leaves the pool state unchanged; `TotalSupplyOverflow` is raised after
`accrued_token_per_share` has been assigned, so on that error exactly that
one field may differ from the pre-call state. -/
theorem c5_amended (p : StakePool) (s cb a : Nat) (e : StakingError) (p' : StakePool)
    (h : update_pool p s cb a = UpdateOutcome.err e p') :
    (e ≠ StakingError.TotalSupplyOverflow → p' = p) ∧
    (e = StakingError.TotalSupplyOverflow →
      p' = { p with accrued_token_per_share := p'.accrued_token_per_share }) := by
  unfold update_pool at h
  split at h
  · exact absurd h (by simp)
  split at h
  · exact absurd h (by simp)
  split at h
  · exact absurd h (by simp)
  split at h
  · injection h with h1 h2
    subst h1
    subst h2
    exact ⟨fun _ => rfl, fun _ => rfl⟩
  split at h
  · injection h with h1 h2
    subst h1
    subst h2
    exact ⟨fun _ => rfl, fun _ => rfl⟩
  split at h
  · injection h with h1 h2
    subst h1
    subst h2
    exact ⟨fun _ => rfl, fun _ => rfl⟩
  split at h
  · injection h with h1 h2
    subst h1
    subst h2
    exact ⟨fun _ => rfl, fun _ => rfl⟩
  split at h
  · injection h with h1 h2
    subst h1
    subst h2
    exact ⟨fun _ => rfl, fun _ => rfl⟩
  split at h
  · injection h with h1 h2
    subst h1
    subst h2
    exact ⟨fun hne => absurd rfl hne, fun _ => rfl⟩
  · exact absurd h (by simp)

/-- C5 (witness): the amended theorem at the concrete `TotalSupplyOverflow`
run: the erroring state differs from the pre-call state at most in
`accrued_token_per_share`. -/
theorem c5_amended_witness :
    update_pool poolC5 1 10 1 =
      UpdateOutcome.err StakingError.TotalSupplyOverflow
        { poolC5 with accrued_token_per_share := 10000000000 } ∧
    ({ poolC5 with accrued_token_per_share := 10000000000 } : StakePool) =
      { poolC5 with accrued_token_per_share :=
        ({ poolC5 with accrued_token_per_share := 10000000000 } : StakePool).accrued_token_per_share } := by
  have h : update_pool poolC5 1 10 1 =
      UpdateOutcome.err StakingError.TotalSupplyOverflow
        { poolC5 with accrued_token_per_share := 10000000000 } := by decide
  exact ⟨h, (c5_amended poolC5 1 10 1 _ _ h).2 rfl⟩

lemma apply_bonus_clear_pair (p : StakePool) (cb : Nat)
    (hiff : p.bonus_start_block.isSome = p.bonus_end_block.isSome) :
    (apply_bonus_clear p cb).bonus_start_block.isSome
      = (apply_bonus_clear p cb).bonus_end_block.isSome := by
  unfold apply_bonus_clear set_bonus_multiplier
  rcases hbe : p.bonus_end_block with _ | v
  · rw [hbe] at hiff
    simp only [hbe]
    exact hiff
  · rw [hbe] at hiff
    simp only [hbe]
    split
    · rfl
    · rw [hbe]
      exact hiff

lemma apply_bonus_clear_cleared (p : StakePool) (cb v : Nat)
    (hbe : p.bonus_end_block = some v) (h0 : v ≠ 0) (hvc : v < cb) :
    (apply_bonus_clear p cb).bonus_start_block = none ∧
    (apply_bonus_clear p cb).bonus_end_block = none ∧
    (apply_bonus_clear p cb).bonus_multiplier = some 1 := by
  unfold apply_bonus_clear set_bonus_multiplier
  simp only [hbe]
  rw [if_pos ⟨h0, hvc⟩]
  exact ⟨rfl, rfl, rfl⟩

/-- A pool with a complete bonus window [3,5] at multiplier 2. -/
def poolC6 : StakePool :=
  { basePool with
    bonus_multiplier := some 2
    bonus_start_block := some 3
    bonus_end_block := some 5 }

/-- The state of `poolC6` after a settle at block 10 clears its window. -/
def poolC6r : StakePool :=
  { poolC6 with
    accrued_token_per_share := 12000000000
    last_reward_block := 10
    bonus_start_block := none
    bonus_end_block := none
    bonus_multiplier := some 1 }

/-- C6 (counterexample): the all-present-or-all-absent invariant of the
three bonus fields is not preserved: clearing the window on a settle past
`bonus_end_block` sets `bonus_start_block` and `bonus_end_block` to absent
but leaves `bonus_multiplier` present (reset to `Some 1`). -/
theorem c6_claim_false :
    update_pool poolC6 1 10 0 = UpdateOutcome.ok poolC6r ∧
    poolC6.bonus_multiplier.isSome = true ∧
    poolC6.bonus_start_block.isSome = true ∧
    poolC6.bonus_end_block.isSome = true ∧
    poolC6r.bonus_multiplier.isSome = true ∧
    poolC6r.bonus_start_block = none ∧
    poolC6r.bonus_end_block = none := by
  refine ⟨by decide, rfl, rfl, rfl, rfl, rfl, rfl⟩

/-- C6 (amended): a successful `update_pool` preserves the weaker invariant
that `bonus_start_block` and `bonus_end_block` are both present or both
absent; and when the staked supply is nonzero, the height has advanced, and
a present `bonus_end_block` is nonzero and strictly below `current_block`,
the window fields are cleared while `bonus_multiplier` becomes `Some 1`
(present), so the three-field all-or-nothing invariant of the claim is
broken by the clearing itself. -/
theorem c6_amended (p : StakePool) (s cb a : Nat) (p' : StakePool)
    (h : update_pool p s cb a = UpdateOutcome.ok p') :
    (p.bonus_start_block.isSome = p.bonus_end_block.isSome →
      p'.bonus_start_block.isSome = p'.bonus_end_block.isSome) ∧
    (∀ v, p.bonus_end_block = some v → v ≠ 0 → v < cb → s ≠ 0 →
      p.last_reward_block < cb →
      p'.bonus_start_block = none ∧ p'.bonus_end_block = none ∧
      p'.bonus_multiplier = some 1) := by
  by_cases hcb : cb ≤ p.last_reward_block
  · have hp : p' = p := by
      unfold update_pool at h
      rw [if_pos hcb] at h
      injection h with h'
      exact h'.symm
    subst hp
    exact ⟨fun hh => hh, fun v _ _ _ _ hl => absurd hl (by omega)⟩
  · by_cases hs : s = 0
    · subst hs
      have hp : p' = set_last_reward_block p cb := by
        unfold update_pool at h
        rw [if_neg hcb, if_pos rfl] at h
        injection h with h'
        exact h'.symm
      subst hp
      exact ⟨fun hh => hh, fun v _ _ _ hs' _ => absurd rfl hs'⟩
    · push_neg at hcb
      obtain ⟨mult, reward, pf, prod, delta, acc, ts, hmult, hreward, hpf, hprod,
        hdelta, hacc, hts, hp⟩ := update_pool_ok_inv hcb hs h
      have hfr2 := apply_last_reward_frame
        { p with accrued_token_per_share := acc, total_supply := ts } cb
      constructor
      · intro hiff
        rw [hp]
        refine apply_bonus_clear_pair _ cb ?_
        rw [hfr2.2.2.2.2.1, hfr2.2.2.2.2.2]
        exact hiff
      · intro v hv h0 hvc _ _
        rw [hp]
        refine apply_bonus_clear_cleared _ cb v ?_ h0 hvc
        rw [hfr2.2.2.2.2.2]
        exact hv

/-- C6 (witness): the amended theorem at the concrete clearing run on
`poolC6`: the cleared state has absent window fields and multiplier
`Some 1`. -/
theorem c6_amended_witness :
    poolC6r.bonus_start_block = none ∧ poolC6r.bonus_end_block = none ∧
    poolC6r.bonus_multiplier = some 1 :=
  (c6_amended poolC6 1 10 0 poolC6r (by decide)).2 5 rfl (by decide) (by decide)
    (by decide) (by decide)

/-- C10: when `update_pool` returns through an early branch — the height
guard `current_block ≤ last_reward_block` or a zero staked supply — the
call succeeds and `total_supply` is unchanged (the `amount` argument is
discarded), whereas a successful run through the full accrual path adds
`amount` to `total_supply`. -/
theorem c10_early_branch_total (p : StakePool) (s cb a : Nat) :
    ((cb ≤ p.last_reward_block ∨ s = 0) →
      ∃ p', update_pool p s cb a = UpdateOutcome.ok p' ∧
        p'.total_supply = p.total_supply) ∧
    (∀ p', s ≠ 0 → p.last_reward_block < cb →
      update_pool p s cb a = UpdateOutcome.ok p' →
      p'.total_supply = p.total_supply + a) := by
  constructor
  · intro hcond
    by_cases hcb : cb ≤ p.last_reward_block
    · refine ⟨p, ?_, rfl⟩
      unfold update_pool
      rw [if_pos hcb]
    · have hs : s = 0 := by tauto
      subst hs
      refine ⟨set_last_reward_block p cb, ?_, rfl⟩
      unfold update_pool
      rw [if_neg hcb, if_pos rfl]
  · intro p' hs hcb h
    obtain ⟨mult, reward, pf, prod, delta, acc, ts, hmult, hreward, hpf, hprod,
      hdelta, hacc, hts, hp⟩ := update_pool_ok_inv hcb hs h
    obtain ⟨hts1, _⟩ := checked_add_some hts
    have hfr := apply_bonus_clear_frame
      (apply_last_reward
        { p with accrued_token_per_share := acc, total_supply := ts } cb) cb
    have hfr2 := apply_last_reward_frame
      { p with accrued_token_per_share := acc, total_supply := ts } cb
    rw [hp, hfr.2.2.2, hfr2.2.2.1]
    exact hts1

/-- The settled state reached from `basePool` at block 20 with supply 3 and
incoming amount 1; used to witness the accrual clause of C10. -/
def poolC10r : StakePool :=
  { basePool with
    last_reward_block := 20
    accrued_token_per_share := 6666666666
    total_supply := 1 }

/-- C10 (witness): the theorem at concrete inputs: a zero-supply settle
leaves `total_supply` at its old value while an accrual-path settle with
incoming amount 1 increases it by exactly 1. -/
theorem c10_early_branch_total_witness :
    (∃ p', update_pool basePool 0 5 7 = UpdateOutcome.ok p' ∧
      p'.total_supply = basePool.total_supply) ∧
    poolC10r.total_supply = basePool.total_supply + 1 :=
  ⟨(c10_early_branch_total basePool 0 5 7).1 (Or.inr rfl),
   (c10_early_branch_total basePool 3 20 1).2 poolC10r (by decide) (by decide)
     (by decide)⟩
